import Mathlib

/-!
Verification of the go_rasp_monitor repository's core logic (spec.md) against a
shallow embedding of its Go source.

The repository ships two program variants of the dashboard plus a shell script:
* the full dashboard (gauges, sparkline, full process table; `updateAllProcessList`,
  `updateCPUChart`, `updateNetworkInfo`, `EventLoop` with PageUp/PageDown/Home/End),
* a compact 240x240 variant (`updateProcessView`, `updateNetworkView`, `EventLoop`
  with Tab/Up/Down only).

Modelling conventions:
* Go `float64` values are modelled as exact rationals (`ℚ`).  None of the claims
  under scrutiny depends on rounding of floating-point arithmetic: the sort only
  compares CPU values, the history buffer only stores values, and the averages and
  rates are single divisions.
* Go `uint64` is modelled as `Nat` together with explicit reduction modulo `2 ^ 64`
  where Go wraps (the network-counter subtraction).
* Fallible OS reads (`os.ReadFile`, `strconv.ParseFloat`) are inputs of the model:
  an `Option` argument stands for the read outcome.
* `fmt.Sprintf` numeric rendering is abstracted to a total function producing the
  same shape of string (digits, one decimal digit, unit suffix); the claims only
  depend on which branch produces which row, never on the digits themselves.
* `sort.Slice` is embedded as the pattern-defeating quicksort of the Go standard
  library (src/sort/zsortfunc.go, Go 1.19 and later), transcribed loop by loop;
  every loop carries explicit fuel, and running out of fuel returns the current
  slice (the top-level entry point supplies enough fuel for all executions).
-/

namespace RaspMonitor

/-- ProcessInfo from src/main.go (full-dashboard variant): one process's metrics.
CPU and Memory are float64 percentages, modelled as rationals. -/
structure ProcessInfo where
  pid : Int
  name : String
  cpu : ℚ
  memory : ℚ
  status : String
  username : String
  ppid : Int
  connections : Nat
  deriving DecidableEq, Repr

instance : Inhabited ProcessInfo where
  default := ⟨0, "", 0, 0, "", "", 0, 0⟩

/-! ## Utility functions (src/main.go, both variants) -/

/-- calculateAverage from src/main.go: zero on an empty slice, otherwise the
running sum divided by the length. -/
def calculateAverage (values : List ℚ) : ℚ :=
  if values.length = 0 then 0
  else values.foldl (· + ·) 0 / (values.length : ℚ)

/-- bytesToKB from src/main.go: float64(bytes) / 1024. -/
def bytesToKB (bytes : Nat) : ℚ := (bytes : ℚ) / 1024

/-- bytesToMB from src/main.go: float64(bytes) / 1024 / 1024. -/
def bytesToMB (bytes : Nat) : ℚ := (bytes : ℚ) / 1024 / 1024

/-- Abstraction of Go's `fmt.Sprintf("%.1f°C", temp)`: an integer part, a dot,
one tenths digit and the unit suffix.  The exact rounding of the digits is
irrelevant to the claims; what matters is the shape of the produced string. -/
def sprintfTemp (temp : ℚ) : String :=
  toString (⌊temp * 10⌋ / 10) ++ "." ++ toString ((⌊temp * 10⌋ % 10).natAbs) ++ "°C"

/-- formatTemperature from src/main.go: a formatted degree string for positive
temperatures, the sentinel "N/A" otherwise. -/
def formatTemperature (temp : ℚ) : String :=
  if temp > 0 then sprintfTemp temp else "N/A"

/-- getCPUTemperature from src/main.go.  `readRes` is the outcome of
`os.ReadFile("/sys/class/thermal/thermal_zone0/temp")` (`none` = read error)
and `parseFloat` is the outcome of `strconv.ParseFloat` on the trimmed
contents (`none` = parse error).  Both failure branches return the sentinel 0;
the success branch divides the parsed millidegree value by 1000. -/
def getCPUTemperature (readRes : Option String) (parseFloat : String → Option ℚ) : ℚ :=
  match readRes with
  | none => 0
  | some data =>
    match parseFloat data.trim with
    | none => 0
    | some temp => temp / 1000

/-! ## HistoryBuffer (src/main.go, full-dashboard variant)

`NewDashboard` initialises `cpuHistory := make([]float64, historySize)` (a slice
of `historySize` zeros) and `updateCPUChart` executes
`d.cpuHistory = append(d.cpuHistory[1:], avgCPU)` — drop the oldest element and
append the newest average. -/

/-- The shift-and-append push on cpuHistory from updateCPUChart:
`append(h[1:], v)`. -/
def pushHistory (hist : List ℚ) (v : ℚ) : List ℚ :=
  hist.drop 1 ++ [v]

/-- updateCPUChart from src/main.go: push the average CPU of the snapshot onto
the history buffer. -/
def updateCPUChart (hist : List ℚ) (cpuPercent : List ℚ) : List ℚ :=
  pushHistory hist (calculateAverage cpuPercent)

/-- cpuHistory as built by NewDashboard: `make([]float64, n)`, i.e. n zeros. -/
def newHistory (n : Nat) : List ℚ := List.replicate n 0

/-! ## Network rates (src/main.go, updateNetworkInfo)

The cumulative counters are uint64; `stats.NetSent - d.prevNetSent` is Go
unsigned subtraction, i.e. subtraction modulo 2^64. -/

/-- Go uint64 subtraction `a - b` (operands assumed < 2^64): wraps modulo 2^64. -/
def u64sub (a b : Nat) : Nat :=
  (a + 2 ^ 64 - b % 2 ^ 64) % 2 ^ 64

/-- The delta-baseline state kept on the Dashboard struct between refreshes. -/
structure NetState where
  prevNetSent : Nat
  prevNetRecv : Nat
  deriving DecidableEq, Repr

/-- The four numeric quantities updateNetworkInfo renders (Sprintf formatting
abstracted): total MB sent/received and the KB/s rates from the deltas. -/
structure NetRows where
  totalSentMB : ℚ
  totalRecvMB : ℚ
  sendRateKB : ℚ
  recvRateKB : ℚ
  deriving DecidableEq, Repr

/-- updateNetworkInfo from src/main.go: compute the uint64 deltas against the
stored baseline, store the new counters as the next baseline, and render the
totals and rates. -/
def updateNetworkInfo (st : NetState) (netSent netRecv : Nat) : NetState × NetRows :=
  let sentDiff := u64sub netSent st.prevNetSent
  let recvDiff := u64sub netRecv st.prevNetRecv
  (⟨netSent, netRecv⟩,
   ⟨bytesToMB netSent, bytesToMB netRecv, bytesToKB sentDiff, bytesToKB recvDiff⟩)

/-! ## Viewport: process-list navigation and scroll-window reconciliation

Full-dashboard variant: `EventLoop` (src/main.go) applies the navigation key
handlers to `d.selectedProcess` (a Go int, modelled as `Int`); the Down,
PageDown and End handlers re-fetch a fresh snapshot first and consult its
table length.  `updateAllProcessList` (src/main.go) is the reconciliation run
on every refresh: it clamps the selection into the table and recomputes the
scroll window `startIdx`/`endIdx` from the widget's inner height. -/

/-- The navigation events of the full dashboard's EventLoop. -/
inductive NavEvent where
  | up
  | down
  | pageUp
  | pageDown
  | home
  | endKey
  deriving DecidableEq, Repr

/-- The selection transition of each navigation key handler in EventLoop
(src/main.go, full-dashboard variant).  `n` is the length of
`stats.AllProcesses` of the snapshot the handler consults; only the Down,
PageDown and End handlers read it (they re-fetch a snapshot), matching the
source. -/
def navStep (sel : Int) (n : Nat) : NavEvent → Int
  | .up => if sel > 0 then sel - 1 else sel
  | .down => if sel < (n : Int) - 1 then sel + 1 else sel
  | .pageUp =>
    let s := sel - 10
    if s < 0 then 0 else s
  | .pageDown =>
    let s := sel + 10
    if s ≥ (n : Int) then (n : Int) - 1 else s
  | .home => 0
  | .endKey => if (n : Int) > 0 then (n : Int) - 1 else sel

/-- One rendered row of the process-list widget.  The Sprintf column layout is
abstracted: `text` carries header / separator / placeholder lines verbatim,
`procRow` carries the rendered process together with its highlight flag. -/
inductive Row where
  | text (s : String)
  | procRow (highlighted : Bool) (p : ProcessInfo)
  deriving DecidableEq, Repr

/-- Result of one reconciliation: the (possibly clamped) selection, the rows
handed to the widget, and the scroll window `[scrollStart, scrollEnd)`. -/
structure ViewOut where
  selectedProcess : Int
  rows : List Row
  scrollStart : Int
  scrollEnd : Int
  deriving DecidableEq, Repr

/-- The header rows of updateAllProcessList (column captions and separator). -/
def allProcessHeader : List Row :=
  [Row.text "PID Name CPU% Mem% St PPID Conns User", Row.text "---"]

/-- The row loop of updateAllProcessList: `for i := startIdx; i < endIdx; i++`,
highlighting the row whose index equals the selection. -/
def procRows (procs : List ProcessInfo) (sel lo hi : Int) : List Row :=
  (List.range (hi - lo).toNat).map fun k =>
    Row.procRow ((lo + (k : Int)) = sel) (procs.getD (lo + (k : Int)).toNat default)

/-- updateAllProcessList from src/main.go (full-dashboard variant), the
viewport reconciliation.  `innerDy` is `d.allProcessList.Inner.Dy()`.  An empty
table short-circuits to the placeholder row and leaves the selection untouched
(the Go function returns before the clamping code); otherwise the selection is
clamped into bounds, the visible height is `innerDy - 2` clamped below by 1,
`startIdx` is 0 or `selected - visibleHeight + 1`, and `endIdx` is
`startIdx + visibleHeight` truncated to the table length, in exactly the
source's order of clamps. -/
def updateAllProcessList (sel : Int) (procs : List ProcessInfo) (innerDy : Int) : ViewOut :=
  let total : Int := procs.length
  if total = 0 then
    ⟨sel, [Row.text "No processes found"], 0, 0⟩
  else
    let sel1 := if sel ≥ total then total - 1 else sel
    let sel2 := if sel1 < 0 then 0 else sel1
    let vh0 := innerDy - 2
    let vh := if vh0 < 1 then 1 else vh0
    let start0 : Int := 0
    let start1 := if sel2 ≥ vh then sel2 - vh + 1 else start0
    let end0 := start1 + vh
    let end1 := if end0 > total then total else end0
    let start2 := if start1 < 0 then 0 else start1
    ⟨sel2, allProcessHeader ++ procRows procs sel2 start2 end1, start2, end1⟩

/-- The header rows of the compact variant's updateProcessView. -/
def processViewHeader : List Row :=
  [Row.text "PID Name CPU%", Row.text "---"]

/-- updateProcessView from src/main.go (compact 240x240 variant): same
clamping of the selection, but a fixed visible height of 27 and a
cursor-at-top scroll policy: `startIdx := selectedProcess`, pulled back to
`total - 27` when it overshoots the tail and clamped at 0, then
`endIdx := startIdx + 27` truncated to the table length. -/
def updateProcessView (sel : Int) (procs : List ProcessInfo) : ViewOut :=
  let total : Int := procs.length
  if total = 0 then
    ⟨sel, [Row.text "No processes found"], 0, 0⟩
  else
    let sel1 := if sel ≥ total then total - 1 else sel
    let sel2 := if sel1 < 0 then 0 else sel1
    let vh : Int := 27
    let start0 := sel2
    let start1 := if start0 > total - vh then total - vh else start0
    let start2 := if start1 < 0 then 0 else start1
    let end0 := start2 + vh
    let end1 := if end0 > total then total else end0
    ⟨sel2, processViewHeader ++ procRows procs sel2 start2 end1, start2, end1⟩

/-! ## ProcessTable rebuild: the sort at the end of getAllProcesses

`getAllProcesses` (src/main.go) collects one ProcessInfo per process and then
executes

  sort.Slice(processInfos, func(i, j int) bool
    -- return processInfos[i].CPU > processInfos[j].CPU
  )

`sort.Slice` of the Go standard library is the pattern-defeating quicksort of
src/sort/zsortfunc.go (Go 1.19 and later), entered as
`pdqsort_func(lessSwap, 0, n, bits.Len(uint(n)))`.  It is transcribed below
function by function.  Indices are `Nat`; every Go loop becomes a fuel-indexed
recursive function whose fuel argument is always large enough that it never
runs out on the executions the source performs (exhausted fuel returns the
slice unchanged, which keeps every function total and permutation-preserving).
Out-of-range accesses cannot occur in the source (Go would panic); `swapAt`
leaves the slice unchanged and `lessAt` compares defaults in that dead case. -/

/-- The process table: the slice []ProcessInfo being sorted. -/
abbrev PTable := List ProcessInfo

/-- The comparator closure passed to sort.Slice:
`processInfos[i].CPU > processInfos[j].CPU`. -/
def lessAt (l : PTable) (i j : Nat) : Bool :=
  decide ((l.getD i default).cpu > (l.getD j default).cpu)

/-- data.Swap(i, j): exchange the records at positions i and j. -/
def swapAt (l : PTable) (i j : Nat) : PTable :=
  if i < l.length ∧ j < l.length then
    (l.set i (l.getD j default)).set j (l.getD i default)
  else l

/-- Inner loop of insertionSort_func:
`for j := i; j > a && data.Less(j, j-1); j--` with a swap per step. -/
def insertionInner : Nat → PTable → Nat → Nat → PTable
  | 0, l, _, _ => l
  | fuel + 1, l, a, j =>
    if a < j ∧ lessAt l j (j - 1) = true then
      insertionInner fuel (swapAt l j (j - 1)) a (j - 1)
    else l

/-- Outer loop of insertionSort_func: `for i := a + 1; i < b; i++`. -/
def insertionOuter : Nat → PTable → Nat → Nat → Nat → PTable
  | 0, l, _, _, _ => l
  | fuel + 1, l, a, b, i =>
    if i < b then insertionOuter fuel (insertionInner (i + 1) l a i) a b (i + 1)
    else l

/-- insertionSort_func from src/sort/zsortfunc.go on the half-open range
[a, b). -/
def insertionSortGo (l : PTable) (a b : Nat) : PTable :=
  insertionOuter (b + 1) l a b (a + 1)

/-- siftDown_func from src/sort/zsortfunc.go: sift the root down a max-heap
living on [first, first+hi). -/
def siftDownGo : Nat → PTable → Nat → Nat → Nat → PTable
  | 0, l, _, _, _ => l
  | fuel + 1, l, root, hi, first =>
    let child0 := 2 * root + 1
    if child0 ≥ hi then l
    else
      let child :=
        if child0 + 1 < hi ∧ lessAt l (first + child0) (first + child0 + 1) = true then
          child0 + 1
        else child0
      if ¬ lessAt l (first + root) (first + child) = true then l
      else siftDownGo fuel (swapAt l (first + root) (first + child)) child hi first

/-- Heap-construction loop of heapSort_func:
`for i := (hi - 1) / 2; i >= 0; i--` — the counter argument is i + 1. -/
def heapBuildLoop : Nat → PTable → Nat → Nat → PTable
  | 0, l, _, _ => l
  | i + 1, l, hi, first => heapBuildLoop i (siftDownGo (hi + 1) l i hi first) hi first

/-- Pop loop of heapSort_func: `for i := hi - 1; i >= 0; i--` swapping the
maximum to the end and re-sifting — the counter argument is i + 1. -/
def heapPopLoop : Nat → PTable → Nat → PTable
  | 0, l, _ => l
  | i + 1, l, first =>
    heapPopLoop i (siftDownGo (i + 2) (swapAt l first (first + i)) 0 i first) first

/-- heapSort_func from src/sort/zsortfunc.go on [a, b). -/
def heapSortGo (l : PTable) (a b : Nat) : PTable :=
  let first := a
  let hi := b - a
  heapPopLoop hi (heapBuildLoop ((hi - 1) / 2 + 1) l hi first) first

/-- Loop of reverseRange_func: `i, j := a, b-1; for i < j` swap and close in. -/
def reverseLoop : Nat → PTable → Nat → Nat → PTable
  | 0, l, _, _ => l
  | fuel + 1, l, i, j =>
    if i < j then reverseLoop fuel (swapAt l i j) (i + 1) (j - 1) else l

/-- reverseRange_func from src/sort/zsortfunc.go. -/
def reverseRangeGo (l : PTable) (a b : Nat) : PTable :=
  reverseLoop b l a (b - 1)

/-- bits.Len on uint: the number of bits needed to represent n. -/
def bitsLen (n : Nat) : Nat :=
  if n = 0 then 0 else n.log2 + 1

/-- One step of the xorshift generator used by breakPatterns_func, on a
uint64 state. -/
def xorshiftNext (r : Nat) : Nat :=
  let r1 := Nat.xor r ((r <<< 13) % 2 ^ 64) % 2 ^ 64
  let r2 := Nat.xor r1 (r1 >>> 7) % 2 ^ 64
  Nat.xor r2 ((r2 <<< 17) % 2 ^ 64) % 2 ^ 64

/-- breakPatterns_func from src/sort/zsortfunc.go: scatter three elements
around the first quartile using a xorshift stream seeded with the length.
Its three-iteration for-loop is unrolled. -/
def breakPatternsGo (l : PTable) (a b : Nat) : PTable :=
  let len := b - a
  if len ≥ 8 then
    let modulus := 1 <<< bitsLen len
    let idx := a + len / 4 * 2 - 1
    let r1 := xorshiftNext len
    let o1 := Nat.land r1 (modulus - 1)
    let o1 := if o1 ≥ len then o1 - len else o1
    let l1 := swapAt l (idx - 1) (a + o1)
    let r2 := xorshiftNext r1
    let o2 := Nat.land r2 (modulus - 1)
    let o2 := if o2 ≥ len then o2 - len else o2
    let l2 := swapAt l1 idx (a + o2)
    let r3 := xorshiftNext r2
    let o3 := Nat.land r3 (modulus - 1)
    let o3 := if o3 ≥ len then o3 - len else o3
    swapAt l2 (idx + 1) (a + o3)
  else l

/-- The three sortedness hints of choosePivot_func. -/
inductive SortedHint where
  | unknownHint
  | increasingHint
  | decreasingHint
  deriving DecidableEq, Repr

/-- order2_func: return the two indices in comparator order, counting a swap
when they were reversed. -/
def order2Go (l : PTable) (a b : Nat) (swaps : Nat) : Nat × Nat × Nat :=
  if lessAt l b a = true then (b, a, swaps + 1) else (a, b, swaps)

/-- median_func: index of the median of three positions, threading the swap
counter exactly as the source's three order2 calls do. -/
def medianGo (l : PTable) (a b c : Nat) (swaps : Nat) : Nat × Nat :=
  let ab := order2Go l a b swaps
  let bc := order2Go l ab.2.1 c ab.2.2
  let ab2 := order2Go l ab.1 bc.1 bc.2.2
  (ab2.2.1, ab2.2.2)

/-- medianAdjacent_func: median of positions a-1, a, a+1. -/
def medianAdjacentGo (l : PTable) (a : Nat) (swaps : Nat) : Nat × Nat :=
  medianGo l (a - 1) a (a + 1) swaps

/-- Map the final swap count to a hint: 0 means increasing, maxSwaps = 12
means decreasing, anything else unknown. -/
def hintOfSwaps (swaps : Nat) : SortedHint :=
  if swaps = 0 then .increasingHint
  else if swaps = 12 then .decreasingHint
  else .unknownHint

/-- choosePivot_func from src/sort/zsortfunc.go: quartile positions, the Tukey
ninther for lengths of at least 50, a plain median of three for lengths of at
least 8, and the mid quartile below that. -/
def choosePivotGo (l : PTable) (a b : Nat) : Nat × SortedHint :=
  let len := b - a
  let i := a + len / 4 * 1
  let j := a + len / 4 * 2
  let k := a + len / 4 * 3
  if len ≥ 8 then
    if len ≥ 50 then
      let mi := medianAdjacentGo l i 0
      let mj := medianAdjacentGo l j mi.2
      let mk := medianAdjacentGo l k mj.2
      let m := medianGo l mi.1 mj.1 mk.1 mk.2
      (m.1, hintOfSwaps m.2)
    else
      let m := medianGo l i j k 0
      (m.1, hintOfSwaps m.2)
  else (j, hintOfSwaps 0)

/-- The i-advance scan of partialInsertionSort_func:
`for i < b && !data.Less(i, i-1) ` — returns the first out-of-order position
(or b). -/
def presortAdvance : Nat → PTable → Nat → Nat → Nat
  | 0, _, _, i => i
  | fuel + 1, l, b, i =>
    if i < b ∧ ¬ lessAt l i (i - 1) = true then presortAdvance fuel l b (i + 1) else i

/-- Left-shift loop of partialInsertionSort_func:
`for j := i - 1; j >= 1; j--` stopping at the first ordered pair. -/
def shiftLeftLoop : Nat → PTable → Nat → PTable
  | 0, l, _ => l
  | fuel + 1, l, j =>
    if 1 ≤ j then
      if ¬ lessAt l j (j - 1) = true then l
      else shiftLeftLoop fuel (swapAt l j (j - 1)) (j - 1)
    else l

/-- Right-shift loop of partialInsertionSort_func:
`for j := i + 1; j < b; j++` stopping at the first ordered pair. -/
def shiftRightLoop : Nat → PTable → Nat → Nat → PTable
  | 0, l, _, _ => l
  | fuel + 1, l, b, j =>
    if j < b then
      if ¬ lessAt l j (j - 1) = true then l
      else shiftRightLoop fuel (swapAt l j (j - 1)) b (j + 1)
    else l

/-- partialInsertionSort_func from src/sort/zsortfunc.go (the name is
shortened here): up to maxSteps = 5 adjacent out-of-order pairs are repaired;
true means the range ended up sorted, false means giving up.  Short ranges
(below shortestShifting = 50) bail out before mutating. -/
def presortScan : Nat → PTable → Nat → Nat → Nat → PTable × Bool
  | 0, l, _, _, _ => (l, false)
  | steps + 1, l, a, b, i =>
    let i1 := presortAdvance (b + 1) l b i
    if i1 = b then (l, true)
    else if b - a < 50 then (l, false)
    else
      let l1 := swapAt l i1 (i1 - 1)
      let l2 := if i1 - a ≥ 2 then shiftLeftLoop i1 l1 (i1 - 1) else l1
      let l3 := if b - i1 ≥ 2 then shiftRightLoop (b + 1) l2 b (i1 + 1) else l2
      presortScan steps l3 a b i1

/-- i-advance of partition_func: `for i <= j && data.Less(i, a) ` — i++. -/
def partAdvanceI : Nat → PTable → Nat → Nat → Nat → Nat
  | 0, _, _, _, i => i
  | fuel + 1, l, a, j, i =>
    if i ≤ j ∧ lessAt l i a = true then partAdvanceI fuel l a j (i + 1) else i

/-- j-retreat of partition_func: `for i <= j && !data.Less(j, a) ` — j--. -/
def partRetreatJ : Nat → PTable → Nat → Nat → Nat → Nat
  | 0, _, _, _, j => j
  | fuel + 1, l, a, i, j =>
    if i ≤ j ∧ ¬ lessAt l j a = true then partRetreatJ fuel l a i (j - 1) else j

/-- Main loop of partition_func: scan from both ends and swap misplaced
pairs; returns the slice and the final j. -/
def partitionLoop : Nat → PTable → Nat → Nat → Nat → PTable × Nat
  | 0, l, _, _, j => (l, j)
  | fuel + 1, l, a, i, j =>
    let i1 := partAdvanceI (fuel + 1) l a j i
    let j1 := partRetreatJ (fuel + 1) l a i1 j
    if i1 > j1 then (l, j1)
    else partitionLoop fuel (swapAt l i1 j1) a (i1 + 1) (j1 - 1)

/-- partition_func from src/sort/zsortfunc.go: Hoare partition around the
record at `pivot` (first swapped to position a); returns the slice, the final
pivot position and the alreadyPartitioned flag. -/
def partitionGo (l : PTable) (a b pivot : Nat) : PTable × Nat × Bool :=
  let l0 := swapAt l a pivot
  let i := a + 1
  let j := b - 1
  let i1 := partAdvanceI (b + 1) l0 a j i
  let j1 := partRetreatJ (b + 1) l0 a i1 j
  if i1 > j1 then (swapAt l0 j1 a, j1, true)
  else
    let l1 := swapAt l0 i1 j1
    let lj := partitionLoop (b + 1) l1 a (i1 + 1) (j1 - 1)
    (swapAt lj.1 lj.2 a, lj.2, false)

/-- i-advance of partitionEqual_func: `for i <= j && !data.Less(a, i) `. -/
def partEqAdvanceI : Nat → PTable → Nat → Nat → Nat → Nat
  | 0, _, _, _, i => i
  | fuel + 1, l, a, j, i =>
    if i ≤ j ∧ ¬ lessAt l a i = true then partEqAdvanceI fuel l a j (i + 1) else i

/-- j-retreat of partitionEqual_func: `for i <= j && data.Less(a, j) `. -/
def partEqRetreatJ : Nat → PTable → Nat → Nat → Nat → Nat
  | 0, _, _, _, j => j
  | fuel + 1, l, a, i, j =>
    if i ≤ j ∧ lessAt l a j = true then partEqRetreatJ fuel l a i (j - 1) else j

/-- Main loop of partitionEqual_func; returns the slice and the final i. -/
def partitionEqualLoop : Nat → PTable → Nat → Nat → Nat → PTable × Nat
  | 0, l, _, i, _ => (l, i)
  | fuel + 1, l, a, i, j =>
    let i1 := partEqAdvanceI (fuel + 1) l a j i
    let j1 := partEqRetreatJ (fuel + 1) l a i1 j
    if i1 > j1 then (l, i1)
    else partitionEqualLoop fuel (swapAt l i1 j1) a (i1 + 1) (j1 - 1)

/-- partitionEqual_func from src/sort/zsortfunc.go: partition elements equal
to the pivot (swapped to position a) to the front; returns the slice and the
first index of the strictly-greater suffix. -/
def partitionEqualGo (l : PTable) (a b pivot : Nat) : PTable × Nat :=
  let l0 := swapAt l a pivot
  partitionEqualLoop (b + 1) l0 a (a + 1) (b - 1)

/-- pdqsort_func from src/sort/zsortfunc.go.  The function's main for-loop and
its recursive calls both become recursive calls here, consuming one unit of
fuel each; `wasBalanced`/`wasPartitioned` are the function's local flags,
carried through loop iterations and reset to true in recursive calls, exactly
as in the source where they are locals initialised to true. -/
def pdqsortGo : Nat → PTable → Nat → Nat → Nat → Bool → Bool → PTable
  | 0, l, _, _, _, _, _ => l
  | fuel + 1, l, a, b, limit, wasBalanced, wasPartitioned =>
    let length := b - a
    if length ≤ 12 then insertionSortGo l a b
    else if limit = 0 then heapSortGo l a b
    else
      let l1 := if wasBalanced then l else breakPatternsGo l a b
      let limit1 := if wasBalanced then limit else limit - 1
      let ph := choosePivotGo l1 a b
      let l2 := if ph.2 = SortedHint.decreasingHint then reverseRangeGo l1 a b else l1
      let pivot := if ph.2 = SortedHint.decreasingHint then (b - 1) - (ph.1 - a) else ph.1
      let hint := if ph.2 = SortedHint.decreasingHint then SortedHint.increasingHint else ph.2
      let scan :=
        if wasBalanced ∧ wasPartitioned ∧ hint = SortedHint.increasingHint then
          presortScan 5 l2 a b (a + 1)
        else (l2, false)
      if scan.2 then scan.1
      else if 0 < a ∧ ¬ lessAt scan.1 (a - 1) pivot = true then
        let pe := partitionEqualGo scan.1 a b pivot
        pdqsortGo fuel pe.1 pe.2 b limit1 wasBalanced wasPartitioned
      else
        let pr := partitionGo scan.1 a b pivot
        let mid := pr.2.1
        let wasPartitioned1 := pr.2.2
        let leftLen := mid - a
        let rightLen := b - mid
        let wasBalanced1 := decide (min leftLen rightLen ≥ length / 8)
        if leftLen < rightLen then
          pdqsortGo fuel (pdqsortGo fuel pr.1 a mid limit1 true true)
            (mid + 1) b limit1 wasBalanced1 wasPartitioned1
        else
          pdqsortGo fuel (pdqsortGo fuel pr.1 (mid + 1) b limit1 true true)
            a mid limit1 wasBalanced1 wasPartitioned1

/-- Fuel bound for the whole sort: far above the number of loop iterations
and recursion levels any execution on n records can take. -/
def sortSliceFuel (n : Nat) : Nat :=
  (n + 2) * (n + 2) * (n + 2) + 64

/-- The ProcessTable rebuild: the `sort.Slice(processInfos, CPU descending)`
call ending getAllProcesses, i.e. `pdqsort_func(data, 0, n, bits.Len(n))` on
the collected records. -/
def rebuildProcessTable (records : PTable) : PTable :=
  pdqsortGo (sortSliceFuel records.length) records 0 records.length
    (bitsLen records.length) true true

/-- One step of the full dashboard's event loop as it affects the selection:
either a navigation key (with `n` the table length of the snapshot the handler
consults) or a refresh (timer tick or the r key), which reconciles through
updateAllProcessList against the freshly rebuilt table. -/
inductive Cmd where
  | nav (e : NavEvent) (n : Nat)
  | refresh (procs : List ProcessInfo) (innerDy : Int)

/-- Apply one event-loop step to the selection. -/
def stepCmd (sel : Int) : Cmd → Int
  | .nav e n => navStep sel n e
  | .refresh procs innerDy => (updateAllProcessList sel procs innerDy).selectedProcess

/-- Run a sequence of event-loop steps from a starting selection. -/
def runCmds (sel : Int) (cmds : List Cmd) : Int :=
  cmds.foldl stepCmd sel

/-! ## Concrete inputs used by scenarios, witnesses and counterexamples -/

/-- Predicate picking the records with a given CPU-percent; used to state
sort stability: a stable sort leaves `filter (cpuIs c)` unchanged for every c. -/
def cpuIs (c : ℚ) (r : ProcessInfo) : Bool := r.cpu == c

/-- A concrete process record with the given pid and CPU-percent. -/
def mkProc (p : Nat) (c : ℚ) : ProcessInfo := ⟨p, "p", c, 0, "S", "root", 1, 0⟩

/-- Thirteen records whose two CPU-5 entries (pids 100 and 101, in that input
order) get reordered by the rebuild: thirteen records exceed pdqsort's
insertion-sort cutoff of 12, and the partition step swaps the pivot into
position over the head of the slice. -/
def tieBreakInput : PTable :=
  [mkProc 100 5, mkProc 101 5, mkProc 2 9, mkProc 3 4, mkProc 4 8, mkProc 5 1,
   mkProc 6 6, mkProc 7 2, mkProc 8 7, mkProc 9 3, mkProc 10 10, mkProc 11 0,
   mkProc 12 11]

/-- The five-record table of the spec's End scenario (tableLength 5). -/
def endScenarioTable : PTable :=
  [mkProc 1 9, mkProc 2 7, mkProc 3 5, mkProc 4 3, mkProc 5 1]

/-- Thirty records with distinct CPU values, enough to scroll the compact
variant's fixed 27-row window. -/
def table30 : PTable :=
  (List.range 30).map fun k => mkProc k ((30 - k : Nat) : ℚ)

/-! ## Helper lemmas -/

/-- swapAt commutes with cons when both indices step down. -/
theorem swapAt_cons (z : ProcessInfo) (l : PTable) (n m : Nat) :
    swapAt (z :: l) (n + 1) (m + 1) = z :: swapAt l n m := by
  unfold swapAt
  split_ifs with h1 h2 h2
  · rfl
  · exact absurd ⟨by simpa using h1.1, by simpa using h1.2⟩ h2
  · exact absurd ⟨by simpa using h2.1, by simpa using h2.2⟩ h1
  · rfl

/-- Swapping two adjacent records with different CPU values does not change
the subsequence of records carrying any fixed CPU value. -/
theorem swapAt_adj_filter (c : ℚ) : ∀ (j : Nat) (l : PTable), 1 ≤ j →
    (l.getD (j - 1) default).cpu ≠ (l.getD j default).cpu →
    (swapAt l j (j - 1)).filter (cpuIs c) = l.filter (cpuIs c) := by
  intro j l
  induction l generalizing j with
  | nil => intro _ _; rfl
  | cons z l' ih =>
    intro hj hne
    match j, hj with
    | 1, _ =>
      match l' with
      | [] => rfl
      | w :: r =>
        have hzw : z.cpu ≠ w.cpu := by simpa using hne
        have hsw : swapAt (z :: w :: r) 1 (1 - 1) = w :: z :: r := by
          unfold swapAt
          rw [if_pos]
          · rfl
          · exact ⟨by simp, by simp⟩
        rw [hsw]
        by_cases hz : cpuIs c z = true <;> by_cases hw : cpuIs c w = true
        · exact absurd (by
            have h1 : z.cpu = c := by simpa [cpuIs] using hz
            have h2 : w.cpu = c := by simpa [cpuIs] using hw
            rw [h1, h2]) hzw
        · simp [List.filter_cons, hz, hw]
        · simp [List.filter_cons, hz, hw]
        · simp [List.filter_cons, hz, hw]
    | (jj + 2), _ =>
      have heq : (jj + 2) - 1 = (jj + 1) := rfl
      rw [heq, swapAt_cons z l' (jj + 1) jj]
      have hne' : (l'.getD ((jj + 1) - 1) default).cpu ≠ (l'.getD (jj + 1) default).cpu := by
        simpa using hne
      have hrec := ih (jj + 1) (by omega) hne'
      simp only [Nat.add_sub_cancel] at hrec
      simp [List.filter_cons, hrec]

/-- The inner insertion-sort loop only swaps strictly out-of-order adjacent
records, so it preserves the subsequence of each CPU value. -/
theorem insertionInner_filter (c : ℚ) :
    ∀ (fuel : Nat) (l : PTable) (a j : Nat),
    (insertionInner fuel l a j).filter (cpuIs c) = l.filter (cpuIs c) := by
  intro fuel
  induction fuel with
  | zero => intro l a j; rfl
  | succ n ih =>
    intro l a j
    rw [insertionInner]
    split_ifs with h
    · rw [ih]
      refine swapAt_adj_filter c j l (by omega) ?_
      have := of_decide_eq_true h.2
      exact ne_of_lt this
    · rfl

/-- The outer insertion-sort loop preserves the subsequence of each CPU
value. -/
theorem insertionOuter_filter (c : ℚ) :
    ∀ (fuel : Nat) (l : PTable) (a b i : Nat),
    (insertionOuter fuel l a b i).filter (cpuIs c) = l.filter (cpuIs c) := by
  intro fuel
  induction fuel with
  | zero => intro l a b i; rfl
  | succ n ih =>
    intro l a b i
    rw [insertionOuter]
    split_ifs with h
    · rw [ih, insertionInner_filter]
    · rfl

/-- On tables of at most maxInsertion = 12 records the rebuild is exactly one
insertion sort: pdqsort's first length check routes there immediately. -/
theorem rebuild_small (l : PTable) (h : l.length ≤ 12) :
    rebuildProcessTable l = insertionSortGo l 0 l.length := by
  unfold rebuildProcessTable
  obtain ⟨f, hf⟩ : ∃ f, sortSliceFuel l.length = f + 1 :=
    ⟨sortSliceFuel l.length - 1, by unfold sortSliceFuel; omega⟩
  rw [hf, pdqsortGo]
  simp [Nat.sub_zero, h]

/-- Navigation handlers never take the selection below -1 (only PageDown on
an empty table can reach -1 at all). -/
theorem navStep_ge_neg_one (sel : Int) (n : Nat) (e : NavEvent) (h : -1 ≤ sel) :
    -1 ≤ navStep sel n e := by
  cases e <;> simp only [navStep] <;> (try split_ifs) <;> omega

/-- Reconciliation never takes the selection below -1: an empty table leaves
it unchanged, a nonempty table clamps it to at least 0. -/
theorem updateAllProcessList_sel_ge_neg_one (sel : Int) (procs : List ProcessInfo)
    (dy : Int) (h : -1 ≤ sel) :
    -1 ≤ (updateAllProcessList sel procs dy).selectedProcess := by
  by_cases hz : (procs.length : Int) = 0
  · simp only [updateAllProcessList, hz]
    norm_num
    omega
  · simp only [updateAllProcessList, hz, if_false]
    split_ifs <;> omega

/-- The selection stays at least -1 over every event-loop trace. -/
theorem runCmds_ge_neg_one : ∀ (cmds : List Cmd) (sel : Int), -1 ≤ sel →
    -1 ≤ runCmds sel cmds := by
  intro cmds
  induction cmds with
  | nil => intro sel h; exact h
  | cons c cs ih =>
    intro sel h
    show -1 ≤ runCmds (stepCmd sel c) cs
    refine ih _ ?_
    cases c with
    | nav e n => exact navStep_ge_neg_one sel n e h
    | refresh procs dy => exact updateAllProcessList_sel_ge_neg_one sel procs dy h

/-- Folding pushes over the buffer drops as many oldest entries as values
were pushed. -/
theorem foldl_pushHistory : ∀ (vs : List ℚ) (h : List ℚ), 1 ≤ h.length →
    List.foldl pushHistory h vs = (h ++ vs).drop vs.length := by
  intro vs
  induction vs with
  | nil => intro h _; simp
  | cons v vs ih =>
    intro h hh
    show List.foldl pushHistory (pushHistory h v) vs = _
    rw [ih (pushHistory h v) (by simp [pushHistory])]
    match h, hh with
    | a :: t, _ =>
      show ((t ++ [v]) ++ vs).drop vs.length = ((a :: t ++ v :: vs)).drop (vs.length + 1)
      simp [pushHistory, List.append_assoc]

/-- Go uint64 subtraction agrees with Nat subtraction when no wrap occurs. -/
theorem u64sub_of_le (a b : Nat) (hba : b ≤ a) (ha : a < 2 ^ 64) : u64sub a b = a - b := by
  unfold u64sub
  omega

/-- The formatted degree string always contains a decimal point, hence can
never collide with the sentinel "N/A". -/
theorem sprintfTemp_has_dot (t : ℚ) : ('.' : Char) ∈ (sprintfTemp t).data := by
  unfold sprintfTemp
  simp [String.data_append]

/-! ## Claim theorems -/

set_option maxRecDepth 40000 in
/-- C1, counterexample: the ProcessTable rebuild is NOT stable as claimed.  On
this thirteen-record input the two records with equal CPU-percent 5 (pids 100
and 101, in that input order) come out in the opposite order: sort.Slice is an
unstable pattern-defeating quicksort, and thirteen records exceed its
stable insertion-sort cutoff of twelve. -/
theorem rebuild_unstable_at_thirteen_records :
    tieBreakInput.filter (cpuIs 5) = [mkProc 100 5, mkProc 101 5] ∧
    (rebuildProcessTable tieBreakInput).filter (cpuIs 5)
      = [mkProc 101 5, mkProc 100 5] ∧
    mkProc 100 5 ≠ mkProc 101 5 := by
  exact ⟨by decide, by decide, by decide⟩

/-- C1, amended: the rebuild keeps equal-CPU records in their input order for
tables of at most twelve records (sort.Slice's insertion-sort path), and
feeding equal inputs always yields the identical output order; for larger
tables equal-CPU records may be reordered (see the counterexample). -/
theorem rebuild_stable_small_and_deterministic :
    (∀ l : PTable, l.length ≤ 12 → ∀ c : ℚ,
      (rebuildProcessTable l).filter (cpuIs c) = l.filter (cpuIs c)) ∧
    (∀ l₁ l₂ : PTable, l₁ = l₂ → rebuildProcessTable l₁ = rebuildProcessTable l₂) := by
  constructor
  · intro l h c
    rw [rebuild_small l h]
    unfold insertionSortGo
    rw [insertionOuter_filter]
  · intro l₁ l₂ h
    rw [h]

/-- C1, witness: the stability-below-thirteen part applied to a concrete
four-record table with a CPU tie. -/
theorem rebuild_stable_small_witness :
    [mkProc 1 3, mkProc 2 5, mkProc 3 5, mkProc 4 1].length ≤ 12 ∧
    (rebuildProcessTable [mkProc 1 3, mkProc 2 5, mkProc 3 5, mkProc 4 1]).filter (cpuIs 5)
      = [mkProc 1 3, mkProc 2 5, mkProc 3 5, mkProc 4 1].filter (cpuIs 5) :=
  ⟨by decide, rebuild_stable_small_and_deterministic.1 _ (by decide) 5⟩

/-- C2, counterexample: the compact variant's reconciliation updateProcessView
is a reconciliation with tableLength = 30 > 0 and visibleHeight = 27 ≥ 1 whose
scroll window does not start at the smallest scrollStart ≥ 0 keeping the
selection visible: with selection 2 it starts the window at 2 (cursor-at-top
policy) although scrollStart 0 would keep the selection inside the window,
so the claimed formula max(0, selectedIndex - visibleHeight + 1) fails. -/
theorem compact_viewport_not_minimal_scroll :
    (updateProcessView 2 table30).selectedProcess = 2 ∧
    (updateProcessView 2 table30).scrollStart = 2 ∧
    ¬ ((updateProcessView 2 table30).scrollStart
        = max 0 ((updateProcessView 2 table30).selectedProcess - 27 + 1)) ∧
    0 ≤ (updateProcessView 2 table30).selectedProcess ∧
    (updateProcessView 2 table30).selectedProcess < 0 + 27 ∧
    0 < (updateProcessView 2 table30).scrollStart := by
  exact ⟨by decide, by decide, by decide, by decide, by decide, by decide⟩

/-- C2, amended: the full dashboard's reconciliation updateAllProcessList does
start the scroll window at the minimal-scroll position
max(0, selectedIndex - visibleHeight + 1) whenever the table is nonempty, and
the End scenario holds there: tableLength 5, visibleHeight 3 (innerDy 5),
End from selection 0 gives selection 4 with window [2, 5); the compact
variant's updateProcessView instead uses a cursor-at-top policy. -/
theorem full_viewport_minimal_scroll :
    (∀ (sel : Int) (procs : List ProcessInfo) (innerDy : Int), 0 < procs.length →
      (updateAllProcessList sel procs innerDy).scrollStart
        = max 0 ((updateAllProcessList sel procs innerDy).selectedProcess
            - (if innerDy - 2 < 1 then 1 else innerDy - 2) + 1)) ∧
    (navStep 0 5 NavEvent.endKey = 4 ∧
     (updateAllProcessList (navStep 0 5 NavEvent.endKey) endScenarioTable 5).selectedProcess = 4 ∧
     (updateAllProcessList (navStep 0 5 NavEvent.endKey) endScenarioTable 5).scrollStart = 2 ∧
     (updateAllProcessList (navStep 0 5 NavEvent.endKey) endScenarioTable 5).scrollEnd = 5) := by
  constructor
  · intro sel procs innerDy h
    have hne : ¬ ((procs.length : Int) = 0) := by omega
    unfold updateAllProcessList
    simp only [hne, if_false]
    split_ifs <;> omega
  · exact ⟨by decide, by decide, by decide, by decide⟩

/-- C2, witness: the minimal-scroll formula applied to the concrete
five-record table. -/
theorem full_viewport_minimal_scroll_witness :
    0 < endScenarioTable.length ∧
    (updateAllProcessList 1 endScenarioTable 5).scrollStart
      = max 0 ((updateAllProcessList 1 endScenarioTable 5).selectedProcess
          - (if (5 : Int) - 2 < 1 then 1 else (5 : Int) - 2) + 1) :=
  ⟨by decide, full_viewport_minimal_scroll.1 1 endScenarioTable 5 (by decide)⟩

/-- C3, counterexample: the selection is NOT clamped to 0 when the table is
empty.  PageDown on an empty table sets it to -1 (the Go handler assigns
len(stats.AllProcesses) - 1 = -1), and the following reconciliation with the
empty table returns before its clamping code, leaving -1 in place. -/
theorem empty_table_selection_not_clamped :
    runCmds 0 [Cmd.nav NavEvent.pageDown 0, Cmd.refresh [] 20] = -1 ∧
    runCmds 0 [Cmd.nav NavEvent.pageDown 0, Cmd.refresh [] 20] < 0 := by
  exact ⟨by decide, by decide⟩

/-- C3, amended: after every reconciliation with a nonempty table the
selection satisfies 0 ≤ selectedIndex < tableLength; a reconciliation with an
empty table leaves the selection unchanged (no clamping), and over every
sequence of navigation events and rebuilds the selection never drops below
-1 (the value PageDown produces on an empty table). -/
theorem selection_bounds_after_reconcile :
    (∀ cmds : List Cmd, -1 ≤ runCmds 0 cmds) ∧
    (∀ (sel : Int) (procs : List ProcessInfo) (dy : Int), 0 < procs.length →
      0 ≤ (updateAllProcessList sel procs dy).selectedProcess ∧
      (updateAllProcessList sel procs dy).selectedProcess < (procs.length : Int)) ∧
    (∀ (sel dy : Int), (updateAllProcessList sel [] dy).selectedProcess = sel) := by
  refine ⟨fun cmds => runCmds_ge_neg_one cmds 0 (by omega), ?_, ?_⟩
  · intro sel procs dy h
    have hne : ¬ ((procs.length : Int) = 0) := by omega
    unfold updateAllProcessList
    simp only [hne, if_false]
    split_ifs <;> exact ⟨by omega, by omega⟩
  · intro sel dy
    rfl

/-- C3, witness: the nonempty-table bounds applied to a concrete
single-record table. -/
theorem selection_bounds_after_reconcile_witness :
    0 < [mkProc 1 1].length ∧
    0 ≤ (updateAllProcessList 7 [mkProc 1 1] 20).selectedProcess :=
  ⟨by decide, (selection_bounds_after_reconcile.2.1 7 [mkProc 1 1] 20 (by decide)).1⟩

/-- C4: after every reconciliation with a nonempty table, both variants'
scroll windows satisfy scrollStart ≤ selectedIndex < scrollEnd,
scrollEnd - scrollStart ≤ visibleHeight (the clamped innerDy - 2 for the
full dashboard, the fixed 27 for the compact variant), scrollStart ≥ 0 and
scrollEnd ≤ tableLength. -/
theorem viewport_invariants_after_reconcile :
    (∀ (sel : Int) (procs : List ProcessInfo) (innerDy : Int), 0 < procs.length →
      (updateAllProcessList sel procs innerDy).scrollStart
          ≤ (updateAllProcessList sel procs innerDy).selectedProcess ∧
      (updateAllProcessList sel procs innerDy).selectedProcess
          < (updateAllProcessList sel procs innerDy).scrollEnd ∧
      (updateAllProcessList sel procs innerDy).scrollEnd
          - (updateAllProcessList sel procs innerDy).scrollStart
          ≤ (if innerDy - 2 < 1 then 1 else innerDy - 2) ∧
      0 ≤ (updateAllProcessList sel procs innerDy).scrollStart ∧
      (updateAllProcessList sel procs innerDy).scrollEnd ≤ (procs.length : Int)) ∧
    (∀ (sel : Int) (procs : List ProcessInfo), 0 < procs.length →
      (updateProcessView sel procs).scrollStart ≤ (updateProcessView sel procs).selectedProcess ∧
      (updateProcessView sel procs).selectedProcess < (updateProcessView sel procs).scrollEnd ∧
      (updateProcessView sel procs).scrollEnd - (updateProcessView sel procs).scrollStart ≤ 27 ∧
      0 ≤ (updateProcessView sel procs).scrollStart ∧
      (updateProcessView sel procs).scrollEnd ≤ (procs.length : Int)) := by
  constructor
  · intro sel procs innerDy h
    have hne : ¬ ((procs.length : Int) = 0) := by omega
    unfold updateAllProcessList
    simp only [hne, if_false]
    split_ifs <;> exact ⟨by omega, by omega, by omega, by omega, by omega⟩
  · intro sel procs h
    have hne : ¬ ((procs.length : Int) = 0) := by omega
    unfold updateProcessView
    simp only [hne, if_false]
    split_ifs <;> exact ⟨by omega, by omega, by omega, by omega, by omega⟩

/-- C4, witness: the invariants applied to the concrete five-record table
with the selection past the end. -/
theorem viewport_invariants_witness :
    0 < endScenarioTable.length ∧
    (updateAllProcessList 9 endScenarioTable 5).scrollStart
      ≤ (updateAllProcessList 9 endScenarioTable 5).selectedProcess :=
  ⟨by decide, (viewport_invariants_after_reconcile.1 9 endScenarioTable 5 (by decide)).1⟩

/-- C5: the shift-and-append push preserves the buffer length (for any buffer
of at least one element, hence for the capacity-sized buffer NewDashboard
creates), after any sequence of pushes the length still equals the initial
capacity, after at least capacity pushes the buffer holds exactly the most
recent capacity pushed values in push order, and the spec's scenario holds:
capacity 3, pushes 10, 20, 30, 40 leave the buffer at 20, 30, 40. -/
theorem history_buffer_push :
    (∀ (h : List ℚ) (v : ℚ), 1 ≤ h.length → (pushHistory h v).length = h.length) ∧
    (∀ (h : List ℚ) (vs : List ℚ), 1 ≤ h.length →
      (List.foldl pushHistory h vs).length = h.length) ∧
    (∀ (h : List ℚ) (vs : List ℚ), 1 ≤ h.length → h.length ≤ vs.length →
      List.foldl pushHistory h vs = vs.drop (vs.length - h.length)) ∧
    (List.foldl pushHistory (newHistory 3) [10, 20, 30, 40] = [20, 30, 40]) := by
  refine ⟨?_, ?_, ?_, by decide⟩
  · intro h v hh
    simp [pushHistory]
    omega
  · intro h vs hh
    rw [foldl_pushHistory vs h hh]
    simp
  · intro h vs hh hlen
    rw [foldl_pushHistory vs h hh]
    have heq : (h ++ vs).drop vs.length = (h ++ vs).drop (h.length + (vs.length - h.length)) := by
      congr 1
      omega
    rw [heq, List.drop_append]

/-- C5, witness: one push on the capacity-3 buffer keeps length 3. -/
theorem history_buffer_push_witness :
    1 ≤ (newHistory 3).length ∧ (pushHistory (newHistory 3) 10).length = (newHistory 3).length :=
  ⟨by decide, history_buffer_push.1 (newHistory 3) 10 (by decide)⟩

/-- C6: for two consecutive refreshes with cumulative counters c0 then
c1 ≥ c0 (below 2^64), the reported send rate is (c1 - c0) / 1024 KB per
second, the stored baseline becomes c1 (likewise for received bytes), and the
next delta is computed against c1, not c0. -/
theorem network_rate_delta_and_baseline (st : NetState) (c0 c1 r0 r1 : Nat)
    (hc : c0 ≤ c1) (hc64 : c1 < 2 ^ 64) (hr : r0 ≤ r1) (hr64 : r1 < 2 ^ 64) :
    ((updateNetworkInfo (updateNetworkInfo st c0 r0).1 c1 r1).2.sendRateKB
        = ((c1 - c0 : Nat) : ℚ) / 1024) ∧
    ((updateNetworkInfo (updateNetworkInfo st c0 r0).1 c1 r1).2.recvRateKB
        = ((r1 - r0 : Nat) : ℚ) / 1024) ∧
    ((updateNetworkInfo (updateNetworkInfo st c0 r0).1 c1 r1).1.prevNetSent = c1) ∧
    ((updateNetworkInfo (updateNetworkInfo st c0 r0).1 c1 r1).1.prevNetRecv = r1) ∧
    (∀ c2 r2,
      (updateNetworkInfo (updateNetworkInfo (updateNetworkInfo st c0 r0).1 c1 r1).1 c2 r2).2.sendRateKB
        = bytesToKB (u64sub c2 c1)) := by
  refine ⟨?_, ?_, rfl, rfl, fun c2 r2 => rfl⟩
  · show bytesToKB (u64sub c1 c0) = _
    rw [u64sub_of_le c1 c0 hc hc64]
    rfl
  · show bytesToKB (u64sub r1 r0) = _
    rw [u64sub_of_le r1 r0 hr hr64]
    rfl

/-- C6, witness: the spec's scenario, counters 1000 then 1500, reported rate
(1500 - 1000) / 1024 KB per second. -/
theorem network_rate_delta_witness :
    1000 ≤ 1500 ∧ (1500 : Nat) < 2 ^ 64 ∧
    (updateNetworkInfo (updateNetworkInfo ⟨0, 0⟩ 1000 0).1 1500 0).2.sendRateKB
      = ((1500 - 1000 : Nat) : ℚ) / 1024 :=
  ⟨by decide, by decide,
    (network_rate_delta_and_baseline ⟨0, 0⟩ 1000 1500 0 0 (by decide) (by decide)
      (by decide) (by decide)).1⟩

/-- C7: with an empty process table, MoveDown is a no-op on any reachable
selection (reachable selections satisfy -1 ≤ sel), and the reconciliation
renders exactly the placeholder row, leaves the selection untouched, and puts
no process row (highlighted or not) in the output — the row loop is never
entered, so no index is accessed. -/
theorem empty_table_placeholder_and_noop :
    (∀ sel : Int, -1 ≤ sel → navStep sel 0 NavEvent.down = sel) ∧
    (∀ (sel dy : Int),
      (updateAllProcessList sel [] dy).rows = [Row.text "No processes found"] ∧
      (updateAllProcessList sel [] dy).selectedProcess = sel ∧
      (∀ (hl : Bool) (p : ProcessInfo),
        Row.procRow hl p ∉ (updateAllProcessList sel [] dy).rows)) := by
  constructor
  · intro sel h
    simp only [navStep]
    split_ifs with hc
    · omega
    · rfl
  · intro sel dy
    refine ⟨rfl, rfl, ?_⟩
    intro hl p hmem
    rw [show (updateAllProcessList sel [] dy).rows = [Row.text "No processes found"] from rfl] at hmem
    simp at hmem

/-- C7, witness: MoveDown at selection 0 with an empty table stays at 0. -/
theorem empty_table_noop_witness :
    -1 ≤ (0 : Int) ∧ navStep 0 0 NavEvent.down = 0 :=
  ⟨by decide, empty_table_placeholder_and_noop.1 0 (by decide)⟩

/-- C8: a failed thermal-zone read or a failed parse yields the sentinel 0,
a successful parse yields the parsed millidegree value divided by 1000, and
formatTemperature renders the string "N/A" exactly when the temperature is
not greater than 0. -/
theorem temperature_sentinel_and_format :
    (∀ parseFloat : String → Option ℚ, getCPUTemperature none parseFloat = 0) ∧
    (∀ (s : String) (parseFloat : String → Option ℚ),
      parseFloat s.trim = none → getCPUTemperature (some s) parseFloat = 0) ∧
    (∀ (s : String) (parseFloat : String → Option ℚ) (t : ℚ),
      parseFloat s.trim = some t → getCPUTemperature (some s) parseFloat = t / 1000) ∧
    (∀ t : ℚ, formatTemperature t = "N/A" ↔ ¬ t > 0) := by
  refine ⟨fun _ => rfl, ?_, ?_, ?_⟩
  · intro s pf hpf
    simp only [getCPUTemperature]
    rw [hpf]
  · intro s pf t hpf
    simp only [getCPUTemperature]
    rw [hpf]
  · intro t
    unfold formatTemperature
    constructor
    · intro heq hpos
      rw [if_pos hpos] at heq
      have hdot := sprintfTemp_has_dot t
      rw [heq] at hdot
      simp at hdot
    · intro hneg
      rw [if_neg hneg]

/-- C8, witness: a read of 42000 millidegrees yields 42 degrees, a parse
failure yields 0, and 42 degrees does not render as "N/A". -/
theorem temperature_sentinel_witness :
    ((fun _ => some (42000 : ℚ)) ("42000\n".trim) = some 42000 ∧
      getCPUTemperature (some "42000\n") (fun _ => some (42000 : ℚ)) = 42) ∧
    ((fun _ => (none : Option ℚ)) ("x".trim) = none ∧
      getCPUTemperature (some "x") (fun _ => (none : Option ℚ)) = 0) ∧
    (formatTemperature 42 ≠ "N/A") := by
  refine ⟨⟨rfl, ?_⟩, ⟨rfl, ?_⟩, ?_⟩
  · rw [temperature_sentinel_and_format.2.2.1 "42000\n" _ 42000 rfl]
    norm_num
  · exact temperature_sentinel_and_format.2.1 "x" _ rfl
  · intro h
    have := (temperature_sentinel_and_format.2.2.2 42).mp h
    norm_num at this

/-- C9: when a cumulative counter decreases between consecutive refreshes,
the Go uint64 subtraction wraps modulo 2^64: the diff equals
a + (2^64 - b), which is huge (at least 2^64 - b) and never negative, and the
reported rate bytesToKB(diff) is likewise nonnegative; both displayed rates
come from exactly this subtraction against the stored baselines. -/
theorem network_rate_wraps_nonnegative :
    (∀ a b : Nat, a < b → b < 2 ^ 64 →
      u64sub a b = a + (2 ^ 64 - b) ∧ 2 ^ 64 - b ≤ u64sub a b ∧
      0 ≤ bytesToKB (u64sub a b)) ∧
    (∀ (st : NetState) (ns nr : Nat),
      (updateNetworkInfo st ns nr).2.sendRateKB = bytesToKB (u64sub ns st.prevNetSent) ∧
      (updateNetworkInfo st ns nr).2.recvRateKB = bytesToKB (u64sub nr st.prevNetRecv)) := by
  constructor
  · intro a b hab hb
    refine ⟨by unfold u64sub; omega, by unfold u64sub; omega, ?_⟩
    unfold bytesToKB
    positivity
  · intro st ns nr
    exact ⟨rfl, rfl⟩

/-- C9, witness: a counter reset from 1000 to 0 produces the wrapped diff
2^64 - 1000. -/
theorem network_rate_wraps_witness :
    (0 : Nat) < 1000 ∧ (1000 : Nat) < 2 ^ 64 ∧ u64sub 0 1000 = 0 + (2 ^ 64 - 1000) :=
  ⟨by decide, by decide, (network_rate_wraps_nonnegative.1 0 1000 (by decide) (by decide)).1⟩

/-- C10: calculateAverage returns 0 on the empty list and the sum divided by
the length on every nonempty list; on that branch the divisor, the cast
length, is provably nonzero, so the division-by-zero case is unreachable and
the average fed to the gauge and history is always defined. -/
theorem calculate_average_guarded :
    (calculateAverage [] = 0) ∧
    (∀ vs : List ℚ, vs ≠ [] →
      calculateAverage vs = vs.sum / (vs.length : ℚ) ∧ ((vs.length : ℚ) ≠ 0)) := by
  refine ⟨rfl, ?_⟩
  intro vs hne
  have hlen : vs.length ≠ 0 := by simpa using hne
  constructor
  · unfold calculateAverage
    rw [if_neg hlen, List.sum_eq_foldl]
  · simpa using hlen

/-- C10, witness: the average of 10 and 20 is their sum over 2. -/
theorem calculate_average_witness :
    ([10, 20] : List ℚ) ≠ [] ∧
    calculateAverage [10, 20] = ([10, 20] : List ℚ).sum / (([10, 20] : List ℚ).length : ℚ) :=
  ⟨by decide, (calculate_average_guarded.2 [10, 20] (by decide)).1⟩

end RaspMonitor
